import Mathlib

/-!
A shallow embedding of the response-reshaping pipeline of the `mcp_massive`
package (files `filters.py` and `formatters.py`): the JSON data model, the
envelope extraction logic, dictionary flattening, field filtering, first/last
aggregation, option parsing, and the three output formatters.

Modelling conventions:
- JSON values are the inductive `Json` below.  Numbers are modelled as
  integers (`Int`); floating-point values and float literal syntax are outside
  the model, so the embedded text parser `parseJson` recognises only integer
  numerals.
- Python dictionaries are association lists with unique keys in insertion
  order; `pyDict` reproduces `dict(items)` (first-occurrence position,
  last-occurrence value), `setKey` reproduces `{**d, k: v}`.
- Python truthiness is `pyFalsy` / `strOptTruthy` / `listOptTruthy`.
- Code that can raise is embedded in `Except String`; code that cannot raise
  is a plain function.
- A formatter input `str | dict` is `String ⊕ Json`.
-/

namespace Massive

/-- A parsed JSON value.  Objects are insertion-ordered association lists;
numbers are modelled as integers (floats are outside the model). -/
inductive Json where
  | null
  | bool (b : Bool)
  | num (n : Int)
  | str (s : String)
  | arr (elements : List Json)
  | obj (entries : List (String × Json))

/-- Python truthiness of a JSON value: `not records` in the source. -/
def pyFalsy : Json → Bool
  | .null => true
  | .bool b => !b
  | .num n => n == 0
  | .str s => s == ""
  | .arr xs => xs.isEmpty
  | .obj kvs => kvs.isEmpty

/-- Python truthiness of an optional string parameter (`if fields:`). -/
def strOptTruthy : Option String → Bool
  | none => false
  | some s => !(s == "")

/-- Python truthiness of an optional list parameter (`if fields:` on a list). -/
def listOptTruthy : Option (List String) → Bool
  | none => false
  | some l => !l.isEmpty

/-- `{**d, k: v}` on an insertion-ordered dict: if `k` is present its value is
replaced in place, otherwise the pair is appended. -/
def setKey (kvs : List (String × Json)) (k : String) (v : Json) :
    List (String × Json) :=
  if (List.lookup k kvs).isSome then
    kvs.map (fun p => if p.1 = k then (k, v) else p)
  else
    kvs ++ [(k, v)]

/-- Python `dict(items)`: first-occurrence position, last-occurrence value. -/
def pyDict (items : List (String × Json)) : List (String × Json) :=
  items.foldl (fun acc p => setKey acc p.1 p.2) []

mutual

/-- Python `repr` of a JSON-shaped value (`None`, `True`, quoted strings,
bracketed lists, braced dicts), as used by `str()` on lists. -/
def pyRepr : Json → String
  | .null => "None"
  | .bool true => "True"
  | .bool false => "False"
  | .num n => toString n
  | .str s => "\x27" ++ s ++ "\x27"
  | .arr xs => "[" ++ pyReprArr xs ++ "]"
  | .obj kvs => "\x7b" ++ pyReprObj kvs ++ "\x7d"

/-- Comma-separated `repr`s of list elements. -/
def pyReprArr : List Json → String
  | [] => ""
  | [x] => pyRepr x
  | x :: y :: xs => pyRepr x ++ ", " ++ pyReprArr (y :: xs)

/-- Comma-separated `repr`s of dict entries. -/
def pyReprObj : List (String × Json) → String
  | [] => ""
  | [(k, v)] => "\x27" ++ k ++ "\x27: " ++ pyRepr v
  | (k, v) :: e :: kvs =>
    "\x27" ++ k ++ "\x27: " ++ pyRepr v ++ ", " ++ pyReprObj (e :: kvs)

end

/-- Python `str()` of a JSON-shaped value: strings render bare, everything
else as `repr`. -/
def pyStr : Json → String
  | .str s => s
  | v => pyRepr v

/-! ### A model of `json.loads`

A total, fuel-driven JSON text reader.  It accepts the JSON grammar over the
`Json` model above (so integer numerals only; float syntax is outside the
model).  `parseJson` returns `none` exactly where `json.loads` would raise
`JSONDecodeError` on the modelled fragment. -/

/-- The opening-brace character, by code point. -/
def lbrace : Char := Char.ofNat 123

/-- The closing-brace character, by code point. -/
def rbrace : Char := Char.ofNat 125

/-- JSON whitespace. -/
def jsonWs (c : Char) : Bool := c == ' ' || c == '\t' || c == '\n' || c == '\r'

/-- Drop leading JSON whitespace. -/
def dropWs (cs : List Char) : List Char := cs.dropWhile jsonWs

/-- ASCII decimal digit test. -/
def jsonDigit (c : Char) : Bool := '0' ≤ c && c ≤ '9'

/-- Split off a maximal run of leading digits. -/
def readDigits (cs : List Char) : List Char × List Char :=
  (cs.takeWhile jsonDigit, cs.dropWhile jsonDigit)

/-- Numeric value of a digit run. -/
def digitsVal (ds : List Char) : Nat :=
  ds.foldl (fun a c => a * 10 + (c.toNat - 48)) 0

/-- Read the rest of a JSON string after the opening quote, handling the
single-character escapes; `fuel` bounds the scan. -/
def readQuoted (fuel : Nat) (acc : List Char) (cs : List Char) :
    Option (String × List Char) :=
  match fuel, cs with
  | 0, _ => none
  | _, [] => none
  | fuel + 1, c :: rest =>
    if c == '"' then some (String.mk acc.reverse, rest)
    else if c == '\\' then
      match rest with
      | [] => none
      | e :: rest2 =>
        if e == '"' then readQuoted fuel ('"' :: acc) rest2
        else if e == '\\' then readQuoted fuel ('\\' :: acc) rest2
        else if e == '/' then readQuoted fuel ('/' :: acc) rest2
        else if e == 'n' then readQuoted fuel ('\n' :: acc) rest2
        else if e == 't' then readQuoted fuel ('\t' :: acc) rest2
        else if e == 'r' then readQuoted fuel ('\r' :: acc) rest2
        else none
    else readQuoted fuel (c :: acc) rest

/-- Read an integer numeral (optional minus sign, no leading zeros, and no
float continuation, floats being outside the model). -/
def readNumber (cs : List Char) : Option (Json × List Char) :=
  let (neg, body) := match cs with
    | '-' :: r => (true, r)
    | _ => (false, cs)
  let (ds, rest) := readDigits body
  if ds.isEmpty then none
  else if ds.length > 1 && ds.headD '0' == '0' then none
  else
    match rest with
    | x :: _ =>
      if x == '.' || x == 'e' || x == 'E' then none
      else some (.num (if neg then -(digitsVal ds : Int) else (digitsVal ds : Int)), rest)
    | [] => some (.num (if neg then -(digitsVal ds : Int) else (digitsVal ds : Int)), rest)

mutual

/-- Read one JSON value; `fuel` bounds the recursion. -/
def readJson : Nat → List Char → Option (Json × List Char)
  | 0, _ => none
  | fuel + 1, cs =>
    match dropWs cs with
    | [] => none
    | c :: rest =>
      if c == 'n' then
        match rest with
        | 'u' :: 'l' :: 'l' :: r => some (.null, r)
        | _ => none
      else if c == 't' then
        match rest with
        | 'r' :: 'u' :: 'e' :: r => some (.bool true, r)
        | _ => none
      else if c == 'f' then
        match rest with
        | 'a' :: 'l' :: 's' :: 'e' :: r => some (.bool false, r)
        | _ => none
      else if c == '"' then
        match readQuoted (rest.length + 1) [] rest with
        | some (s, r) => some (.str s, r)
        | none => none
      else if c == '[' then
        match dropWs rest with
        | ']' :: r => some (.arr [], r)
        | more => readArrayItems fuel more []
      else if c == lbrace then
        match dropWs rest with
        | d :: r =>
          if d == rbrace then some (.obj [], r)
          else readObjectItems fuel (d :: r) []
        | [] => none
      else if c == '-' || jsonDigit c then readNumber (c :: rest)
      else none

/-- Read the remaining comma-separated elements of a non-empty array. -/
def readArrayItems : Nat → List Char → List Json → Option (Json × List Char)
  | 0, _, _ => none
  | fuel + 1, cs, acc =>
    match readJson fuel cs with
    | none => none
    | some (v, r) =>
      match dropWs r with
      | ',' :: r2 => readArrayItems fuel r2 (acc ++ [v])
      | ']' :: r2 => some (.arr (acc ++ [v]), r2)
      | _ => none

/-- Read the remaining comma-separated members of a non-empty object. -/
def readObjectItems : Nat → List Char → List (String × Json) →
    Option (Json × List Char)
  | 0, _, _ => none
  | fuel + 1, cs, acc =>
    match dropWs cs with
    | '"' :: r =>
      match readQuoted (r.length + 1) [] r with
      | none => none
      | some (k, r1) =>
        match dropWs r1 with
        | ':' :: r2 =>
          match readJson fuel r2 with
          | none => none
          | some (v, r3) =>
            match dropWs r3 with
            | ',' :: r4 => readObjectItems fuel r4 (acc ++ [(k, v)])
            | d :: r4 =>
              if d == rbrace then some (.obj (acc ++ [(k, v)]), r4) else none
            | [] => none
        | _ => none
    | _ => none

end

/-- The model of `json.loads`: read one value and require only whitespace
after it. -/
def parseJson (s : String) : Option Json :=
  match readJson (2 * s.length + 2) s.toList with
  | some (v, rest) => if (dropWs rest).isEmpty then some v else none
  | none => none

/-- A formatter input (`str | dict` in the source): JSON text on the left, an
already-parsed value on the right. -/
def inputData : String ⊕ Json → Option Json
  | .inl s => parseJson s
  | .inr v => some v

/-! ### Flattening (`formatters._flatten_dict`) -/

/-- The joined key `f"\x7bparent_key\x7d\x7bsep\x7d\x7bk\x7d" if parent_key
else k` with the default separator. -/
def joinKey (parent_key k : String) : String :=
  if parent_key = "" then k else parent_key ++ "_" ++ k

mutual

/-- The `items` list `_flatten_dict` accumulates: one entry's items, then the
rest's. -/
def flattenItems : List (String × Json) → String → List (String × Json)
  | [], _ => []
  | (k, v) :: rest, parent_key =>
    flattenOne (joinKey parent_key k) v ++ flattenItems rest parent_key

/-- The items one entry contributes: a nested dict is flattened recursively
(the recursive call returning its own `dict(items)`), a list is stringified,
any other leaf is kept verbatim. -/
def flattenOne : String → Json → List (String × Json)
  | new_key, .obj kvs => pyDict (flattenItems kvs new_key)
  | new_key, .arr xs => [(new_key, .str (pyStr (.arr xs)))]
  | new_key, leaf => [(new_key, leaf)]

end

/-- `_flatten_dict`: flatten a nested dict by joining keys with `_`; the
result is `dict(items)` over the accumulated items. -/
def flatten_dict (d : List (String × Json)) (parent_key : String) :
    List (String × Json) :=
  pyDict (flattenItems d parent_key)

/-- Per-record flattening as the formatters apply it: dict records are
flattened, non-dict records become `\x7b"value": str(record)\x7d`. -/
def flattenRecord : Json → List (String × Json)
  | .obj kvs => flatten_dict kvs ""
  | r => [("value", .str (pyStr r))]

/-! ### Envelope extraction -/

/-- Record extraction as written in `json_to_csv_filtered`
(formatters.py lines 132-146). -/
def extractRecordsCsv (data : Json) : List Json :=
  match data with
  | .obj kvs =>
    match List.lookup "results" kvs with
    | some results_value =>
      match results_value with
      | .arr xs => xs
      | .obj o => [.obj o]
      | other => [other]
    | none =>
      match List.lookup "last" kvs with
      | some last_value =>
        match last_value with
        | .obj o => [.obj o]
        | _ => [data]
      | none => [data]
  | .arr xs => xs
  | other => [other]

/-- Record extraction as written in `json_to_json_filtered`
(formatters.py lines 259-272). -/
def extractRecordsJsonF (data : Json) : List Json :=
  match data with
  | .obj kvs =>
    match List.lookup "results" kvs with
    | some results_value =>
      match results_value with
      | .arr xs => xs
      | .obj o => [.obj o]
      | other => [other]
    | none =>
      match List.lookup "last" kvs with
      | some last_value =>
        match last_value with
        | .obj o => [.obj o]
        | _ => [data]
      | none => [data]
  | .arr xs => xs
  | other => [other]

/-- Single-record extraction as written in `json_to_compact`
(formatters.py lines 208-220): `results[0] if results else \x7b\x7d` for a
`results` list, the `results` value itself otherwise; a `last` value only when
it is a dict (else the empty dict); the head of a bare list (else the empty
dict); otherwise the input itself. -/
def extractRecordCompact (data : Json) : Json :=
  match data with
  | .obj kvs =>
    match List.lookup "results" kvs with
    | some results =>
      match results with
      | .arr xs => xs.headD (.obj [])
      | other => other
    | none =>
      match List.lookup "last" kvs with
      | some last_value =>
        match last_value with
        | .obj o => .obj o
        | _ => .obj []
      | none => data
  | .arr xs => xs.headD (.obj [])
  | other => other

/-! ### Aggregation (`filters._apply_aggregation`) -/

/-- The `records` value the aggregator extracts: the `results` value of a
dict that has one, a bare list itself, and `none` for the single-record
early return. -/
def getRecordsAgg : Json → Option Json
  | .obj kvs =>
    match List.lookup "results" kvs with
    | some rv => some rv
    | none => none
  | .arr xs => some (.arr xs)
  | _ => none

/-- Python `records[0]` on an arbitrary value: list head, first character of
a string, `KeyError` on a dict (string keys only), `TypeError` otherwise. -/
def pyFirst : Json → Except String Json
  | .arr (x :: _) => .ok x
  | .arr [] => .error "IndexError: list index out of range"
  | .str s =>
    match s.toList with
    | c :: _ => .ok (.str (String.mk [c]))
    | [] => .error "IndexError: string index out of range"
  | .obj _ => .error "KeyError: 0"
  | _ => .error "TypeError: object is not subscriptable"

/-- Python `records[-1]` on an arbitrary value, mirroring `pyFirst`. -/
def pyLast : Json → Except String Json
  | .arr xs =>
    match xs.getLast? with
    | some x => .ok x
    | none => .error "IndexError: list index out of range"
  | .str s =>
    match s.toList.getLast? with
    | some c => .ok (.str (String.mk [c]))
    | none => .error "IndexError: string index out of range"
  | .obj _ => .error "KeyError: -1"
  | _ => .error "TypeError: object is not subscriptable"

/-- `_apply_aggregation` (filters.py lines 162-197).  Rather than raising,
failures are `Except.error`. -/
def apply_aggregation (data : Json) (method : String) : Except String Json :=
  match getRecordsAgg data with
  | none => .ok data
  | some records =>
    if pyFalsy records then .ok data
    else
      match (if method = "first" then pyFirst records
             else if method = "last" then pyLast records
             else .error ("Unknown aggregation method: " ++ method)) with
      | .error e => .error e
      | .ok aggregated_record =>
        match data with
        | .obj kvs =>
          if (List.lookup "results" kvs).isSome then
            .ok (.obj (setKey kvs "results" (.arr [aggregated_record])))
          else .ok (.arr [aggregated_record])
        | _ => .ok (.arr [aggregated_record])

/-! ### Presets and option parsing (`filters.FIELD_PRESETS`,
`filters.parse_filter_params`) -/

/-- The static preset registry, in source order. -/
def FIELD_PRESETS : List (String × List String) := [
  ("price", ["ticker", "close", "timestamp"]),
  ("last_price", ["close"]),
  ("ohlc", ["ticker", "open", "high", "low", "close", "timestamp"]),
  ("ohlcv", ["ticker", "open", "high", "low", "close", "volume", "timestamp"]),
  ("summary", ["ticker", "close", "volume", "change_percent"]),
  ("minimal", ["ticker", "close"]),
  ("volume", ["ticker", "volume", "timestamp"]),
  ("details", ["ticker", "name", "market", "locale", "primary_exchange"]),
  ("info", ["ticker", "name", "description", "homepage_url"]),
  ("news_headlines", ["title", "published_utc", "author"]),
  ("news_summary", ["title", "description", "published_utc", "article_url"]),
  ("trade", ["price", "size", "timestamp"]),
  ("quote", ["bid", "ask", "bid_size", "ask_size", "timestamp"]),
  ("greeks", ["details_ticker", "details_strike_price",
              "details_expiration_date", "details_contract_type",
              "greeks_delta", "greeks_gamma", "greeks_theta", "greeks_vega",
              "implied_volatility"]),
  ("options_summary", ["details_ticker", "details_strike_price",
                       "details_expiration_date", "details_contract_type",
                       "day_close", "day_open", "day_volume", "open_interest",
                       "implied_volatility"]),
  ("options_quote", ["details_ticker", "details_strike_price",
                     "details_contract_type", "last_quote_bid",
                     "last_quote_ask", "last_quote_bid_size",
                     "last_quote_ask_size"])]

/-- The comma-joined list of all preset names, as the error message
enumerates it. -/
def presetNamesStr : String :=
  ", ".intercalate (FIELD_PRESETS.map (fun p => p.1))

/-- Python `str.strip()` whitespace (the kinds the model's inputs can hold). -/
def pySpace (c : Char) : Bool := c == ' ' || c == '\t' || c == '\n' || c == '\r'

/-- Python `s.strip()`: drop leading and trailing whitespace. -/
def pyStrip (s : String) : String :=
  String.mk (((s.toList.dropWhile pySpace).reverse.dropWhile pySpace).reverse)

/-- Split a character list at every comma (Python `s.split(",")`). -/
def splitCommaAux : List Char → List Char → List String
  | [], acc => [String.mk acc.reverse]
  | c :: cs, acc =>
    if c == ',' then String.mk acc.reverse :: splitCommaAux cs []
    else splitCommaAux cs (c :: acc)

/-- Python `s.split(",")`. -/
def splitComma (s : String) : List String := splitCommaAux s.toList []

/-- `[f.strip() for f in fields.split(",") if f.strip()]`. -/
def splitFields (s : String) : List String :=
  ((splitComma s).map pyStrip).filter (fun t => !(t == ""))

/-- Python `s.startswith(p)`. -/
def strStartsWith (s p : String) : Bool := p.toList.isPrefixOf s.toList

/-- Python `s[n:]`. -/
def strDrop (s : String) (n : Nat) : String := String.mk (s.toList.drop n)

/-- The `FilterOptions` dataclass.  `conditions` is reserved and unused. -/
structure FilterOptions where
  fields : Option (List String)
  exclude_fields : Option (List String)
  format : String
  aggregate : Option String
  conditions : Option (List (String × Json))

/-- The fields-parsing step of `parse_filter_params` (filters.py lines
79-92): `None` for a falsy specifier, the preset's list (or the
unknown-preset error) for a `preset:` reference, the comma-split trimmed
list otherwise. -/
def parseFieldList (fields : Option String) :
    Except String (Option (List String)) :=
  if strOptTruthy fields then
    (if strStartsWith (fields.getD "") "preset:" then
       (match List.lookup (strDrop (fields.getD "") 7) FIELD_PRESETS with
        | some l => Except.ok (some l)
        | none =>
          Except.error ("Unknown preset: " ++ strDrop (fields.getD "") 7 ++
            ". Available presets: " ++ presetNamesStr))
     else Except.ok (some (splitFields (fields.getD ""))))
  else Except.ok none

/-- The validation tail of `parse_filter_params` (filters.py lines 94-110):
format then aggregate validation, then the `FilterOptions` value. -/
def validateFormatAggregate (field_list : Option (List String))
    (output_format : String) (aggregate : Option String) :
    Except String FilterOptions :=
  if !(["csv", "json", "compact"].contains output_format) then
    Except.error ("Invalid output_format: " ++ output_format ++
      ". Must be \x27csv\x27, \x27json\x27, or \x27compact\x27")
  else if strOptTruthy aggregate
       && !(["first", "last"].contains (aggregate.getD "")) then
    Except.error ("Invalid aggregate: " ++ aggregate.getD "" ++
      ". Must be \x27first\x27, \x27last\x27, or None")
  else Except.ok (FilterOptions.mk field_list none output_format aggregate none)

/-- `parse_filter_params` (filters.py lines 63-110); raising is
`Except.error`. -/
def parse_filter_params (fields : Option String) (output_format : String)
    (aggregate : Option String) : Except String FilterOptions :=
  match parseFieldList fields with
  | Except.error e => Except.error e
  | Except.ok field_list =>
    validateFormatAggregate field_list output_format aggregate

/-! ### Rendering helpers (`csv.DictWriter`, `json.dumps`) -/

/-- Minimal-quoting test of `csv.DictWriter`: a field is quoted when it holds
the delimiter, the quote character, or a line-terminator character. -/
def csvNeedsQuote (s : String) : Bool :=
  s.any (fun c => c == ',' || c == '"' || c == '\n' || c == '\r')

/-- Quote one CSV field if needed, doubling embedded quote characters. -/
def csvQuote (s : String) : String :=
  if csvNeedsQuote s then "\"" ++ s.replace "\"" "\"\"" ++ "\"" else s

/-- The text the CSV writer emits for a cell value: `None` becomes the empty
string, strings are written bare, everything else via `str()`. -/
def csvCellStr : Json → String
  | .null => ""
  | v => pyStr v

/-- Append the keys of one record that are not yet present, in order. -/
def addNewKeys (acc : List String) (r : List (String × Json)) : List String :=
  r.foldl (fun a p => if a.contains p.1 then a else a ++ [p.1]) acc

/-- All unique keys across records, ordered by first appearance (the
`all_keys` / `seen` loop of the formatters). -/
def uniqueKeys (rs : List (List (String × Json))) : List String :=
  rs.foldl addNewKeys []

/-- One CSV data row over the header `keys`; missing keys render as the empty
string (`restval` of `DictWriter`). -/
def renderCsvRow (keys : List String) (r : List (String × Json)) : String :=
  ",".intercalate (keys.map (fun k =>
    match List.lookup k r with
    | some v => csvQuote (csvCellStr v)
    | none => ""))

/-- The full CSV text: header row then one row per record, each terminated
with a newline. -/
def renderCsv (flattened : List (List (String × Json))) : String :=
  let keys := uniqueKeys flattened
  ",".intercalate (keys.map csvQuote) ++ "\n"
    ++ String.join (flattened.map (fun r => renderCsvRow keys r ++ "\n"))

/-- JSON string escaping for `json.dumps` (the escapes the model's values can
need). -/
def jsonEscapeChar (c : Char) : String :=
  if c == '"' then "\\\""
  else if c == '\\' then "\\\\"
  else if c == '\n' then "\\n"
  else if c == '\t' then "\\t"
  else if c == '\r' then "\\r"
  else String.mk [c]

/-- A double-quoted, escaped JSON string literal. -/
def jsonQuote (s : String) : String :=
  "\"" ++ String.join (s.toList.map jsonEscapeChar) ++ "\""

mutual

/-- `json.dumps` of one value with the compact separators `(",", ":")`. -/
def jsonValCompact : Json → String
  | .null => "null"
  | .bool true => "true"
  | .bool false => "false"
  | .num n => toString n
  | .str s => jsonQuote s
  | .arr xs => "[" ++ jsonValCompactArr xs ++ "]"
  | .obj kvs => "\x7b" ++ jsonValCompactObj kvs ++ "\x7d"

/-- Comma-separated compact dumps of array elements. -/
def jsonValCompactArr : List Json → String
  | [] => ""
  | [x] => jsonValCompact x
  | x :: y :: xs => jsonValCompact x ++ "," ++ jsonValCompactArr (y :: xs)

/-- Comma-separated compact dumps of object members. -/
def jsonValCompactObj : List (String × Json) → String
  | [] => ""
  | [(k, v)] => jsonQuote k ++ ":" ++ jsonValCompact v
  | (k, v) :: e :: kvs =>
    jsonQuote k ++ ":" ++ jsonValCompact v ++ "," ++ jsonValCompactObj (e :: kvs)

end

/-- `json.dumps(record, separators=(",", ":"))` of a flattened record. -/
def jsonDumpsFlat (r : List (String × Json)) : String :=
  "\x7b" ++ ",".intercalate (r.map (fun p => jsonQuote p.1 ++ ":" ++ jsonValCompact p.2)) ++ "\x7d"

/-- `json.dumps(record, indent=2)` of one flattened record nested one level
inside a list. -/
def jsonDumpsRecIndent (r : List (String × Json)) : String :=
  if r.isEmpty then "\x7b\x7d"
  else
    "\x7b\n"
      ++ ",\n".intercalate (r.map (fun p => "    " ++ jsonQuote p.1 ++ ": " ++ jsonValCompact p.2))
      ++ "\n  \x7d"

/-- `json.dumps(records, indent=2)` of the flattened record list. -/
def jsonDumpsListIndent (rs : List (List (String × Json))) : String :=
  if rs.isEmpty then "[]"
  else "[\n" ++ ",\n".intercalate (rs.map (fun r => "  " ++ jsonDumpsRecIndent r)) ++ "\n]"

/-! ### The three formatters -/

/-- The field-filtering step of `json_to_csv_filtered` (formatters.py lines
156-165): a truthy include list wins, else a truthy exclude list applies,
else the records pass unchanged. -/
def filterRecords (fields exclude_fields : Option (List String))
    (flattened : List (List (String × Json))) : List (List (String × Json)) :=
  if listOptTruthy fields then
    flattened.map (fun record => record.filter (fun p => (fields.getD []).contains p.1))
  else if listOptTruthy exclude_fields then
    flattened.map (fun record => record.filter (fun p => !(exclude_fields.getD []).contains p.1))
  else flattened

/-- `json_to_csv_filtered` (formatters.py lines 107-185). -/
def json_to_csv_filtered (json_input : String ⊕ Json)
    (fields exclude_fields : Option (List String)) : String :=
  match inputData json_input with
  | none => ""
  | some data =>
    let flattened :=
      filterRecords fields exclude_fields
        ((extractRecordsCsv data).map flattenRecord)
    if flattened.isEmpty then "" else renderCsv flattened

/-- `json_to_compact` (formatters.py lines 188-232). -/
def json_to_compact (json_input : String ⊕ Json)
    (fields : Option (List String)) : String :=
  match inputData json_input with
  | none => "\x7b\x7d"
  | some data =>
    let flattened := flattenRecord (extractRecordCompact data)
    let filtered :=
      if listOptTruthy fields then
        flattened.filter (fun p => (fields.getD []).contains p.1)
      else flattened
    jsonDumpsFlat filtered

/-- `json_to_json_filtered` (formatters.py lines 235-288), with
`preserve_structure` at its default `False` (no claim exercises it and no
caller in the source passes it). -/
def json_to_json_filtered (json_input : String ⊕ Json)
    (fields : Option (List String)) : String :=
  match inputData json_input with
  | none => "[]"
  | some data =>
    let flattened := (extractRecordsJsonF data).map flattenRecord
    let records :=
      if listOptTruthy fields then
        flattened.map (fun record => record.filter (fun p => (fields.getD []).contains p.1))
      else flattened
    jsonDumpsListIndent records

/-! ### The orchestrator (`filters.apply_filters`) -/

/-- The body of `apply_filters` after `json.loads`: optional aggregation,
then the format dispatch. -/
def applyFiltersParsed (parsed_data : Json) (options : FilterOptions) :
    Except String String :=
  match (if strOptTruthy options.aggregate then
           apply_aggregation parsed_data (options.aggregate.getD "")
         else .ok parsed_data) with
  | .error e => .error e
  | .ok d =>
    if options.format = "csv" then
      .ok (json_to_csv_filtered (.inr d) options.fields options.exclude_fields)
    else if options.format = "json" then
      .ok (json_to_json_filtered (.inr d) options.fields)
    else if options.format = "compact" then
      .ok (json_to_compact (.inr d) options.fields)
    else .error ("Unsupported format: " ++ options.format)

/-- `apply_filters` (filters.py lines 113-159): a string input is parsed by
`json.loads` with no handler, so a parse failure propagates as an error. -/
def apply_filters (data : String ⊕ Json) (options : FilterOptions) :
    Except String String :=
  match data with
  | .inl s =>
    match parseJson s with
    | none => .error "json.decoder.JSONDecodeError: Expecting value"
    | some parsed_data => applyFiltersParsed parsed_data options
  | .inr d => applyFiltersParsed d options

/-- A value a flattened record may hold: neither a dict nor a list. -/
def Json.isFlatValue : Json → Bool
  | .obj _ => false
  | .arr _ => false
  | _ => true

/-! ### Helper lemmas on dict operations -/

theorem lookup_none_key {kvs : List (String × Json)} {k : String}
    (h : List.lookup k kvs = none) : ∀ q ∈ kvs, q.1 ≠ k := by
  induction kvs with
  | nil =>
    intro q hq
    cases hq
  | cons p rest ih =>
    intro q hq
    rcases List.mem_cons.mp hq with rfl | hq2
    · intro hk
      have hb : (k == q.1) = true := by
        simp [hk]
      obtain ⟨a, b⟩ := q
      simp only [List.lookup] at h
      rw [hb] at h
      cases h
    · obtain ⟨a, b⟩ := p
      by_cases hk : k == a
      · simp only [List.lookup] at h
        rw [hk] at h
        cases h
      · simp only [List.lookup] at h
        rw [Bool.of_not_eq_true hk] at h
        exact ih h q hq2

theorem lookup_map_replace {k : String} {v : Json} :
    ∀ {kvs : List (String × Json)}, (List.lookup k kvs).isSome = true →
    List.lookup k (kvs.map (fun p => if p.1 = k then (k, v) else p)) = some v := by
  intro kvs
  induction kvs with
  | nil =>
    intro h
    simp [List.lookup] at h
  | cons p rest ih =>
    intro h
    obtain ⟨a, b⟩ := p
    by_cases hk : a = k
    · simp only [List.map_cons, if_pos hk]
      have hb : (k == a) = true := by
        simp [hk]
      simp [List.lookup]
    · simp only [List.map_cons, if_neg hk]
      have hb : (k == a) = false := by
        simp only [beq_eq_false_iff_ne, ne_eq]
        intro hkk
        exact hk hkk.symm
      simp only [List.lookup, hb] at h
      simp only [List.lookup, hb]
      exact ih h

theorem lookup_append_absent {k : String} {v : Json} :
    ∀ {kvs : List (String × Json)}, List.lookup k kvs = none →
    List.lookup k (kvs ++ [(k, v)]) = some v := by
  intro kvs
  induction kvs with
  | nil =>
    intro _
    simp [List.lookup]
  | cons p rest ih =>
    intro h
    obtain ⟨a, b⟩ := p
    by_cases hk : k == a
    · simp only [List.lookup] at h
      rw [hk] at h
      cases h
    · simp only [List.lookup] at h
      rw [Bool.of_not_eq_true hk] at h
      simp only [List.cons_append, List.lookup, Bool.of_not_eq_true hk]
      exact ih h

theorem lookup_isSome_or_none (o : Option Json) :
    o.isSome = true ∨ o = none := by
  cases o
  · exact Or.inr rfl
  · exact Or.inl rfl

theorem lookup_setKey (kvs : List (String × Json)) (k : String) (v : Json) :
    List.lookup k (setKey kvs k v) = some v := by
  unfold setKey
  rcases lookup_isSome_or_none (List.lookup k kvs) with h | h
  · rw [if_pos h]
    exact lookup_map_replace h
  · rw [if_neg (by simp [h])]
    exact lookup_append_absent h

theorem mem_setKey {kvs : List (String × Json)} {k : String} {v : Json}
    {q : String × Json} (h : q ∈ setKey kvs k v) : q ∈ kvs ∨ q = (k, v) := by
  unfold setKey at h
  rcases lookup_isSome_or_none (List.lookup k kvs) with hs | hs
  · rw [if_pos hs] at h
    rcases List.mem_map.mp h with ⟨p, hp, hq⟩
    by_cases hk : p.1 = k
    · right
      rw [if_pos hk] at hq
      exact hq.symm
    · left
      rw [if_neg hk] at hq
      exact hq ▸ hp
  · rw [if_neg (by simp [hs])] at h
    rcases List.mem_append.mp h with h2 | h2
    · exact Or.inl h2
    · right
      rcases List.mem_cons.mp h2 with rfl | h3
      · rfl
      · cases h3

theorem setKey_key_eq {kvs : List (String × Json)} {k : String} {v : Json}
    {q : String × Json} (h : q ∈ setKey kvs k v) (hk : q.1 = k) :
    q = (k, v) := by
  unfold setKey at h
  rcases lookup_isSome_or_none (List.lookup k kvs) with hs | hs
  · rw [if_pos hs] at h
    rcases List.mem_map.mp h with ⟨p, hp, hq⟩
    by_cases hpk : p.1 = k
    · rw [if_pos hpk] at hq
      exact hq.symm
    · rw [if_neg hpk] at hq
      rw [← hq] at hk
      exact absurd hk hpk
  · rw [if_neg (by simp [hs])] at h
    rcases List.mem_append.mp h with h2 | h2
    · exact absurd hk (lookup_none_key hs q h2)
    · rcases List.mem_cons.mp h2 with rfl | h3
      · rfl
      · cases h3

theorem setKey_idem (kvs : List (String × Json)) (k : String) (v : Json) :
    setKey (setKey kvs k v) k v = setKey kvs k v := by
  have hl : (List.lookup k (setKey kvs k v)).isSome = true := by
    rw [lookup_setKey]
    rfl
  conv_lhs => rw [setKey]
  rw [if_pos hl]
  have hcongr : ∀ q ∈ setKey kvs k v,
      (fun p => if p.1 = k then (k, v) else p) q = id q := by
    intro q hq
    by_cases hk : q.1 = k
    · simp only [if_pos hk, id]
      exact (setKey_key_eq hq hk).symm
    · simp [if_neg hk]
  rw [List.map_congr_left hcongr, List.map_id]

theorem mem_foldl_setKey :
    ∀ (items : List (String × Json)) (acc : List (String × Json))
      (q : String × Json),
      q ∈ items.foldl (fun a p => setKey a p.1 p.2) acc →
      q ∈ acc ∨ q ∈ items := by
  intro items
  induction items with
  | nil =>
    intro acc q h
    exact Or.inl h
  | cons p rest ih =>
    intro acc q h
    simp only [List.foldl_cons] at h
    rcases ih _ q h with h2 | h2
    · rcases mem_setKey h2 with h3 | h3
      · exact Or.inl h3
      · right
        rw [h3, Prod.mk.eta]
        exact List.mem_cons_self _ _
    · right
      exact List.mem_cons_of_mem _ h2

theorem mem_pyDict {items : List (String × Json)} {q : String × Json}
    (h : q ∈ pyDict items) : q ∈ items := by
  rcases mem_foldl_setKey items [] q h with h2 | h2
  · cases h2
  · exact h2

/-! ### Flattening lemmas -/

mutual

theorem flattenItems_flat :
    ∀ (d : List (String × Json)) (parent_key : String) (p : String × Json),
      p ∈ flattenItems d parent_key → p.2.isFlatValue = true
  | [], _, p, hp => by
    simp only [flattenItems] at hp
    cases hp
  | (k, v) :: rest, parent_key, p, hp => by
    simp only [flattenItems] at hp
    rcases List.mem_append.mp hp with h1 | h1
    · exact flattenOne_flat (joinKey parent_key k) v p h1
    · exact flattenItems_flat rest parent_key p h1

theorem flattenOne_flat :
    ∀ (new_key : String) (v : Json) (p : String × Json),
      p ∈ flattenOne new_key v → p.2.isFlatValue = true
  | new_key, .obj kvs, p, hp => by
    simp only [flattenOne] at hp
    exact flattenItems_flat kvs new_key p (mem_pyDict hp)
  | new_key, .arr xs, p, hp => by
    simp only [flattenOne] at hp
    rw [List.mem_singleton.mp hp]
    rfl
  | new_key, .null, p, hp => by
    simp only [flattenOne] at hp
    rw [List.mem_singleton.mp hp]
    rfl
  | new_key, .bool b, p, hp => by
    simp only [flattenOne] at hp
    rw [List.mem_singleton.mp hp]
    rfl
  | new_key, .num n, p, hp => by
    simp only [flattenOne] at hp
    rw [List.mem_singleton.mp hp]
    rfl
  | new_key, .str s, p, hp => by
    simp only [flattenOne] at hp
    rw [List.mem_singleton.mp hp]
    rfl

end

/-- C5: flattening is strictly one level deep.  Every value in the output of
`_flatten_dict` is neither a dict nor a list; one entry with a leaf value
contributes exactly the joined key with the value preserved (type included);
a list-valued entry contributes the joined key with the list's string
representation; a dict-valued entry recurses with the joined key as the new
parent key. -/
theorem c5_flatten_one_level :
    (∀ (d : List (String × Json)) (parent_key : String) (p : String × Json),
        p ∈ flatten_dict d parent_key → p.2.isFlatValue = true)
    ∧ (∀ (parent_key k : String) (v : Json) (rest : List (String × Json)),
        v.isFlatValue = true →
        flattenItems ((k, v) :: rest) parent_key
          = (joinKey parent_key k, v) :: flattenItems rest parent_key)
    ∧ (∀ (parent_key k : String) (xs : List Json) (rest : List (String × Json)),
        flattenItems ((k, .arr xs) :: rest) parent_key
          = (joinKey parent_key k, .str (pyStr (.arr xs)))
              :: flattenItems rest parent_key)
    ∧ (∀ (parent_key k : String) (kvs rest : List (String × Json)),
        flattenItems ((k, .obj kvs) :: rest) parent_key
          = flatten_dict kvs (joinKey parent_key k)
              ++ flattenItems rest parent_key) := by
  refine ⟨?_, ?_, ?_, ?_⟩
  · intro d parent_key p hp
    exact flattenItems_flat d parent_key p (mem_pyDict hp)
  · intro parent_key k v rest hv
    cases v <;> simp_all [flattenItems, flattenOne, Json.isFlatValue]
  · intro parent_key k xs rest
    simp [flattenItems, flattenOne]
  · intro parent_key k kvs rest
    simp [flattenItems, flattenOne, flatten_dict]

/-- C5 witness: the flattened form of `{"details": {"strike_price": 5}}`
holds the joined key with the numeric leaf preserved, which is neither a
dict nor a list; and the defining equations evaluated at that record. -/
theorem c5_flatten_one_level_witness :
    (Json.num 5).isFlatValue = true
    ∧ flattenItems [("details", Json.obj [("strike_price", Json.num 5)])] ""
        = flatten_dict [("strike_price", Json.num 5)] "details"
            ++ flattenItems [] ""
    ∧ flattenItems [("strike_price", Json.num 5)] "details"
        = [("details_strike_price", Json.num 5)] := by
  refine ⟨rfl, ?_, ?_⟩
  · exact c5_flatten_one_level.2.2.2 "" "details" [("strike_price", Json.num 5)] []
  · have h := c5_flatten_one_level.2.1 "details" "strike_price" (Json.num 5) [] rfl
    rw [h]
    rfl

/-- C6 counterexample: the claim as stated fails when the include list given
is empty.  With include list `[]` and no exclude list the record
`{"a": 1}` passes through unchanged, so the result holds the key `"a"`,
which is not a member of the include list; and with include list `[]` and
exclude list `["a"]` the exclude list is applied rather than ignored. -/
theorem c6_counterexample :
    filterRecords (some []) none [[("a", Json.num 1)]] = [[("a", Json.num 1)]]
    ∧ "a" ∉ ([] : List String)
    ∧ filterRecords (some []) (some ["a"]) [[("a", Json.num 1)]] = [([] : List (String × Json))]
    ∧ filterRecords (some []) (some ["a"]) [[("a", Json.num 1)]]
        ≠ filterRecords (some []) none [[("a", Json.num 1)]] := by
  refine ⟨rfl, by simp, rfl, ?_⟩
  intro h
  have h2 : ([] : List (String × Json)) = [("a", Json.num 1)] := by
    have := List.head_eq_of_cons_eq (by exact h)
    exact this
  cases h2

/-- C6 (amended): field filtering strictly narrows and a non-empty include
list wins.  When a non-empty include list is given, each record keeps
exactly its own entries whose key is in the include list (so every resulting
key is a member of the include list, in the record's own key order), and any
exclude list is ignored; when only an exclude list is given no excluded key
appears in the result; when neither is given the records are unchanged.  An
empty include list is treated as absent (truthiness), not as "keep no
fields". -/
theorem c6_field_filtering :
    (∀ (fs : List String) (excl : Option (List String))
        (recs : List (List (String × Json))), fs ≠ [] →
        filterRecords (some fs) excl recs
          = recs.map (fun record => record.filter (fun p => fs.contains p.1)))
    ∧ (∀ (fs : List String) (excl : Option (List String))
        (recs : List (List (String × Json)))
        (r : List (String × Json)) (p : String × Json), fs ≠ [] →
        r ∈ filterRecords (some fs) excl recs → p ∈ r → p.1 ∈ fs)
    ∧ (∀ (es : List String) (recs : List (List (String × Json)))
        (r : List (String × Json)) (p : String × Json),
        r ∈ filterRecords none (some es) recs → p ∈ r → p.1 ∉ es)
    ∧ (∀ recs : List (List (String × Json)),
        filterRecords none none recs = recs) := by
  have hmain : ∀ (fs : List String) (excl : Option (List String))
      (recs : List (List (String × Json))), fs ≠ [] →
      filterRecords (some fs) excl recs
        = recs.map (fun record => record.filter (fun p => fs.contains p.1)) := by
    intro fs excl recs hfs
    have ht : listOptTruthy (some fs) = true := by
      simp [listOptTruthy, hfs]
    simp [filterRecords, ht]
  refine ⟨hmain, ?_, ?_, ?_⟩
  · intro fs excl recs r p hfs hr hp
    rw [hmain fs excl recs hfs] at hr
    rcases List.mem_map.mp hr with ⟨record, _, hrec⟩
    rw [← hrec] at hp
    have hb := List.of_mem_filter hp
    simpa [List.contains, List.elem_iff] using hb
  · intro es recs r p hr hp
    by_cases hes : es = []
    · rw [hes]
      simp
    · have ht : listOptTruthy (some es) = true := by
        simp [listOptTruthy, hes]
      have hf : listOptTruthy (none : Option (List String)) = false := rfl
      simp only [filterRecords, hf, ht, if_true, Bool.false_eq_true, if_false] at hr
      rcases List.mem_map.mp hr with ⟨record, _, hrec⟩
      rw [← hrec] at hp
      have hb := List.of_mem_filter hp
      simp only [Option.getD, Bool.not_eq_eq_eq_not, Bool.not_true] at hb
      intro hmem
      have : List.contains es p.1 = true := by
        simpa [List.contains, List.elem_iff] using hmem
      simp_all
  · intro recs
    simp [filterRecords, listOptTruthy]

/-- C6 witness: with the non-empty include list `["a"]` the record keeps
exactly its `"a"` entry even when an exclude list is also supplied; and an
excluded key never survives an exclude-only filter. -/
theorem c6_field_filtering_witness :
    filterRecords (some ["a"]) (some ["b"])
        [[("a", Json.num 1), ("b", Json.num 2)]]
      = [[("a", Json.num 1)]]
    ∧ "a" ∉ (["b"] : List String) := by
  constructor
  · have h := c6_field_filtering.1 ["a"] (some ["b"])
      [[("a", Json.num 1), ("b", Json.num 2)]] (by simp)
    rw [h]
    rfl
  · exact c6_field_filtering.2.2.1 ["b"] [[("a", Json.num 1)]]
      [("a", Json.num 1)] ("a", Json.num 1)
      (List.mem_singleton.mpr rfl) (List.mem_singleton.mpr rfl)

/-! ### Envelope extraction: C1 -/

/-- The divergent envelope shape: an object without a `results` key whose
`last` value is not an object. -/
def lastNonObjEnvelope : Json → Bool
  | .obj kvs =>
    (List.lookup "results" kvs).isNone
      && (match List.lookup "last" kvs with
          | some (.obj _) => false
          | some _ => true
          | none => false)
  | _ => false

/-- C1 counterexample: on the envelope `{"last": 5}` (a `last` key with a
non-object value), the table formatter's record list is the whole envelope
as the single record, but the compact formatter's selected record is the
empty object, not that record — so the three formatters do not agree. -/
theorem c1_counterexample :
    extractRecordsCsv (Json.obj [("last", Json.num 5)])
        = [Json.obj [("last", Json.num 5)]]
    ∧ extractRecordCompact (Json.obj [("last", Json.num 5)]) = Json.obj []
    ∧ Json.obj [] ≠ Json.obj [("last", Json.num 5)] := by
  refine ⟨rfl, rfl, ?_⟩
  intro h
  cases h

/-- C1 (amended): the table and filtered-JSON formatters derive identical
ordered record lists on every input; the compact formatter's selected record
is the first element of that list whenever the list is non-empty and the
input is not an object with a `last` key (and no `results` key) whose value
is not an object; in that `last`-fallback case the table/JSON formatters
take the whole envelope as the single record while the compact formatter
selects the empty object; and on an empty record list the compact formatter
also selects the empty object. -/
theorem c1_extraction_agreement :
    (∀ data : Json, extractRecordsJsonF data = extractRecordsCsv data)
    ∧ (∀ (data r : Json) (rest : List Json), lastNonObjEnvelope data = false →
        extractRecordsCsv data = r :: rest → extractRecordCompact data = r)
    ∧ (∀ data : Json, lastNonObjEnvelope data = true →
        extractRecordsCsv data = [data]
          ∧ extractRecordCompact data = Json.obj [])
    ∧ (∀ data : Json, extractRecordsCsv data = [] →
        extractRecordCompact data = Json.obj []) := by
  refine ⟨fun _ => rfl, ?_, ?_, ?_⟩
  · intro data r rest hlast hrec
    match data with
    | .null | .bool _ | .num _ | .str _ =>
      simp only [extractRecordsCsv, List.cons.injEq] at hrec
      rcases hrec with ⟨rfl, rfl⟩
      rfl
    | .arr xs =>
      simp only [extractRecordsCsv] at hrec
      simp only [extractRecordCompact, hrec, List.headD_cons]
    | .obj kvs =>
      cases hr : List.lookup "results" kvs with
      | some rv =>
        match rv with
        | .arr xs =>
          have hx : xs = r :: rest := by
            simpa [extractRecordsCsv, hr] using hrec
          simp [extractRecordCompact, hr, hx]
        | .obj o =>
          simp only [extractRecordsCsv, hr, List.cons.injEq] at hrec
          rcases hrec with ⟨rfl, rfl⟩
          simp [extractRecordCompact, hr]
        | .null | .bool _ | .num _ | .str _ =>
          simp only [extractRecordsCsv, hr, List.cons.injEq] at hrec
          rcases hrec with ⟨rfl, rfl⟩
          simp [extractRecordCompact, hr]
      | none =>
        cases hl : List.lookup "last" kvs with
        | some lv =>
          match lv with
          | .obj o =>
            simp only [extractRecordsCsv, hr, hl, List.cons.injEq] at hrec
            rcases hrec with ⟨rfl, rfl⟩
            simp [extractRecordCompact, hr, hl]
          | .null | .bool _ | .num _ | .str _ | .arr _ =>
            exfalso
            simp [lastNonObjEnvelope, hr, hl] at hlast
        | none =>
          simp only [extractRecordsCsv, hr, hl, List.cons.injEq] at hrec
          rcases hrec with ⟨rfl, rfl⟩
          simp [extractRecordCompact, hr, hl]
  · intro data hlast
    match data with
    | .null | .bool _ | .num _ | .str _ | .arr _ =>
      simp [lastNonObjEnvelope] at hlast
    | .obj kvs =>
      cases hr : List.lookup "results" kvs with
      | some rv =>
        simp [lastNonObjEnvelope, hr] at hlast
      | none =>
        cases hl : List.lookup "last" kvs with
        | some lv =>
          match lv with
          | .obj o =>
            simp [lastNonObjEnvelope, hr, hl] at hlast
          | .null | .bool _ | .num _ | .str _ | .arr _ =>
            constructor
            · simp [extractRecordsCsv, hr, hl]
            · simp [extractRecordCompact, hr, hl]
        | none =>
          simp [lastNonObjEnvelope, hr, hl] at hlast
  · intro data hrec
    match data with
    | .null | .bool _ | .num _ | .str _ =>
      simp [extractRecordsCsv] at hrec
    | .arr xs =>
      simp only [extractRecordsCsv] at hrec
      simp [extractRecordCompact, hrec]
    | .obj kvs =>
      cases hr : List.lookup "results" kvs with
      | some rv =>
        match rv with
        | .arr xs =>
          simp only [extractRecordsCsv, hr] at hrec
          simp [extractRecordCompact, hr, hrec]
        | .obj o => simp [extractRecordsCsv, hr] at hrec
        | .null | .bool _ | .num _ | .str _ =>
          simp [extractRecordsCsv, hr] at hrec
      | none =>
        cases hl : List.lookup "last" kvs with
        | some lv =>
          match lv with
          | .obj o => simp [extractRecordsCsv, hr, hl] at hrec
          | .null | .bool _ | .num _ | .str _ | .arr _ =>
            simp [extractRecordsCsv, hr, hl] at hrec
        | none =>
          simp [extractRecordsCsv, hr, hl] at hrec

/-- C1 witness: on `{"results": [{"a": 1}, {"a": 2}]}` — not a
`last`-fallback envelope — the three formatters agree: the JSON and table
record lists coincide and the compact record is the first of them. -/
theorem c1_extraction_agreement_witness :
    extractRecordsJsonF
        (Json.obj [("results", Json.arr [Json.obj [("a", Json.num 1)],
                                         Json.obj [("a", Json.num 2)]])])
      = extractRecordsCsv
          (Json.obj [("results", Json.arr [Json.obj [("a", Json.num 1)],
                                           Json.obj [("a", Json.num 2)]])])
    ∧ extractRecordCompact
          (Json.obj [("results", Json.arr [Json.obj [("a", Json.num 1)],
                                           Json.obj [("a", Json.num 2)]])])
        = Json.obj [("a", Json.num 1)] := by
  constructor
  · exact c1_extraction_agreement.1 _
  · exact c1_extraction_agreement.2.1
      (Json.obj [("results", Json.arr [Json.obj [("a", Json.num 1)],
                                       Json.obj [("a", Json.num 2)]])])
      (Json.obj [("a", Json.num 1)]) [Json.obj [("a", Json.num 2)]] rfl rfl

/-! ### Aggregation: C2, C3, C8 -/

/-- C2: the aggregator is not total.  On the envelope
`{"results": {"price": 150}}` — variant 2, a `results` key holding a single
object — `_apply_aggregation` takes the dict itself as `records` and
evaluates `records[0]`, which raises `KeyError` on a string-keyed dict
instead of returning `{"results": [{"price": 150}]}`. -/
theorem c2_aggregation_dict_results_raises :
    apply_aggregation
        (Json.obj [("results", Json.obj [("price", Json.num 150)])]) "first"
      = Except.error "KeyError: 0" := rfl

theorem agg_of_singleton_setKey (kvs : List (String × Json)) (x : Json)
    (method : String) (hm : method = "first" ∨ method = "last") :
    apply_aggregation (.obj (setKey kvs "results" (.arr [x]))) method
      = .ok (.obj (setKey kvs "results" (.arr [x]))) := by
  have hlook := lookup_setKey kvs "results" (.arr [x])
  rcases hm with rfl | rfl
  · simp [apply_aggregation, getRecordsAgg, hlook, pyFalsy, pyFirst,
      setKey_idem]
  · simp [apply_aggregation, getRecordsAgg, hlook, pyFalsy, pyLast,
      List.getLast?, setKey_idem]

/-- C3: aggregation preserves envelope shape.  A `results`-list envelope
with a non-empty list maps to the same envelope with `results` replaced by
the one-element list holding the first (resp. last) record; a non-empty bare
list maps to the one-element bare list; an empty `results` list, an empty
bare list, and an object with neither a `results` nor a `last` key are
returned unchanged for either method. -/
theorem c3_aggregation_shape :
    (∀ (kvs : List (String × Json)) (rs : List Json) (h : rs ≠ []),
        List.lookup "results" kvs = some (.arr rs) →
        apply_aggregation (.obj kvs) "first"
            = .ok (.obj (setKey kvs "results" (.arr [rs.head h])))
          ∧ apply_aggregation (.obj kvs) "last"
            = .ok (.obj (setKey kvs "results" (.arr [rs.getLast h]))))
    ∧ (∀ (xs : List Json) (h : xs ≠ []),
        apply_aggregation (.arr xs) "first" = .ok (.arr [xs.head h])
          ∧ apply_aggregation (.arr xs) "last" = .ok (.arr [xs.getLast h]))
    ∧ (∀ (kvs : List (String × Json)) (method : String),
        List.lookup "results" kvs = some (.arr []) →
        apply_aggregation (.obj kvs) method = .ok (.obj kvs))
    ∧ (∀ method : String,
        apply_aggregation (.arr []) method = .ok (.arr []))
    ∧ (∀ (kvs : List (String × Json)) (method : String),
        List.lookup "results" kvs = none → List.lookup "last" kvs = none →
        apply_aggregation (.obj kvs) method = .ok (.obj kvs)) := by
  refine ⟨?_, ?_, ?_, ?_, ?_⟩
  · intro kvs rs h hlook
    cases rs with
    | nil => exact absurd rfl h
    | cons x t =>
      constructor
      · simp [apply_aggregation, getRecordsAgg, hlook, pyFalsy, pyFirst]
      · simp [apply_aggregation, getRecordsAgg, hlook, pyFalsy, pyLast,
          List.getLast?_eq_getLast (x :: t) h]
  · intro xs h
    cases xs with
    | nil => exact absurd rfl h
    | cons x t =>
      constructor
      · simp [apply_aggregation, getRecordsAgg, pyFalsy, pyFirst]
      · simp [apply_aggregation, getRecordsAgg, pyFalsy, pyLast,
          List.getLast?_eq_getLast (x :: t) h]
  · intro kvs method hlook
    simp [apply_aggregation, getRecordsAgg, hlook, pyFalsy]
  · intro method
    simp [apply_aggregation, getRecordsAgg, pyFalsy]
  · intro kvs method hr _
    simp [apply_aggregation, getRecordsAgg, hr]

/-- C3 witness: the spec's three examples — `last` over a three-record
`results` envelope, `first` over a two-record bare list, and a bare single
object unchanged. -/
theorem c3_aggregation_shape_witness :
    apply_aggregation
        (Json.obj [("results", Json.arr [Json.obj [("a", Json.num 1)],
          Json.obj [("a", Json.num 2)], Json.obj [("a", Json.num 3)]])]) "last"
      = .ok (Json.obj [("results", Json.arr [Json.obj [("a", Json.num 3)]])])
    ∧ apply_aggregation
        (Json.arr [Json.obj [("a", Json.num 1)], Json.obj [("a", Json.num 2)]])
        "first"
      = .ok (Json.arr [Json.obj [("a", Json.num 1)]])
    ∧ apply_aggregation
        (Json.obj [("ticker", Json.str "AAPL"), ("price", Json.num 150)])
        "first"
      = .ok (Json.obj [("ticker", Json.str "AAPL"), ("price", Json.num 150)]) := by
  refine ⟨?_, ?_, ?_⟩
  · have h := (c3_aggregation_shape.1
      [("results", Json.arr [Json.obj [("a", Json.num 1)],
        Json.obj [("a", Json.num 2)], Json.obj [("a", Json.num 3)]])]
      [Json.obj [("a", Json.num 1)], Json.obj [("a", Json.num 2)],
        Json.obj [("a", Json.num 3)]] (by simp) rfl).2
    rw [h]
    rfl
  · have h := (c3_aggregation_shape.2.1
      [Json.obj [("a", Json.num 1)], Json.obj [("a", Json.num 2)]]
      (by simp)).1
    rw [h]
    rfl
  · exact c3_aggregation_shape.2.2.2.2
      [("ticker", Json.str "AAPL"), ("price", Json.num 150)] "first" rfl rfl

/-- C8: aggregation is idempotent for a fixed method.  Whenever one
application of `_apply_aggregation` with `first` or `last` returns a value,
applying it again with the same method returns that value unchanged. -/
theorem c8_aggregation_idempotent :
    ∀ (data : Json) (method : String) (y : Json),
      method = "first" ∨ method = "last" →
      apply_aggregation data method = .ok y →
      apply_aggregation y method = .ok y := by
  intro data method y hm h
  match data with
  | .null | .bool _ | .num _ | .str _ =>
    simp [apply_aggregation, getRecordsAgg] at h
    subst h
    simp [apply_aggregation, getRecordsAgg]
  | .arr xs =>
    cases hfal : pyFalsy (.arr xs) with
    | true =>
      simp [apply_aggregation, getRecordsAgg, hfal] at h
      subst h
      simp [apply_aggregation, getRecordsAgg, hfal]
    | false =>
      rcases hm with rfl | rfl
      · cases hpf : pyFirst (.arr xs) with
        | error e =>
          simp [apply_aggregation, getRecordsAgg, hfal, hpf] at h
        | ok x =>
          simp [apply_aggregation, getRecordsAgg, hfal, hpf] at h
          subst h
          simp [apply_aggregation, getRecordsAgg, pyFalsy, pyFirst]
      · cases hpf : pyLast (.arr xs) with
        | error e =>
          simp [apply_aggregation, getRecordsAgg, hfal, hpf] at h
        | ok x =>
          simp [apply_aggregation, getRecordsAgg, hfal, hpf] at h
          subst h
          simp [apply_aggregation, getRecordsAgg, pyFalsy, pyLast,
            List.getLast?]
  | .obj kvs =>
    cases hr : List.lookup "results" kvs with
    | none =>
      simp [apply_aggregation, getRecordsAgg, hr] at h
      subst h
      simp [apply_aggregation, getRecordsAgg, hr]
    | some rv =>
      cases hfal : pyFalsy rv with
      | true =>
        simp [apply_aggregation, getRecordsAgg, hr, hfal] at h
        subst h
        simp [apply_aggregation, getRecordsAgg, hr, hfal]
      | false =>
        rcases hm with rfl | rfl
        · cases hpf : pyFirst rv with
          | error e =>
            simp [apply_aggregation, getRecordsAgg, hr, hfal, hpf] at h
          | ok x =>
            simp [apply_aggregation, getRecordsAgg, hr, hfal, hpf] at h
            subst h
            exact agg_of_singleton_setKey kvs x "first" (Or.inl rfl)
        · cases hpf : pyLast rv with
          | error e =>
            simp [apply_aggregation, getRecordsAgg, hr, hfal, hpf] at h
          | ok x =>
            simp [apply_aggregation, getRecordsAgg, hr, hfal, hpf] at h
            subst h
            exact agg_of_singleton_setKey kvs x "last" (Or.inr rfl)

/-- C8 witness: aggregating a two-record `results` envelope with `last` and
then aggregating the result again with `last` returns it unchanged. -/
theorem c8_aggregation_idempotent_witness :
    apply_aggregation
        (Json.obj [("results", Json.arr [Json.obj [("a", Json.num 1)],
          Json.obj [("a", Json.num 2)]])]) "last"
      = .ok (Json.obj [("results", Json.arr [Json.obj [("a", Json.num 2)]])])
    ∧ apply_aggregation
        (Json.obj [("results", Json.arr [Json.obj [("a", Json.num 2)]])])
        "last"
      = .ok (Json.obj [("results", Json.arr [Json.obj [("a", Json.num 2)]])]) :=
  ⟨rfl, c8_aggregation_idempotent
    (Json.obj [("results", Json.arr [Json.obj [("a", Json.num 1)],
      Json.obj [("a", Json.num 2)]])]) "last"
    (Json.obj [("results", Json.arr [Json.obj [("a", Json.num 2)]])])
    (Or.inr rfl) rfl⟩

/-! ### Option parsing: C4 -/

theorem parseFieldList_err {fo : Option String}
    (hts : strOptTruthy fo = true)
    (hsw : strStartsWith (fo.getD "") "preset:" = true)
    (hlk : List.lookup (strDrop (fo.getD "") 7) FIELD_PRESETS = none) :
    parseFieldList fo
      = Except.error ("Unknown preset: " ++ strDrop (fo.getD "") 7
          ++ ". Available presets: " ++ presetNamesStr) := by
  unfold parseFieldList
  rw [hts, hsw, hlk]
  rfl

theorem parseFieldList_preset {fo : Option String} {l : List String}
    (hts : strOptTruthy fo = true)
    (hsw : strStartsWith (fo.getD "") "preset:" = true)
    (hlk : List.lookup (strDrop (fo.getD "") 7) FIELD_PRESETS = some l) :
    parseFieldList fo = Except.ok (some l) := by
  unfold parseFieldList
  rw [hts, hsw, hlk]
  rfl

theorem parseFieldList_split {fo : Option String}
    (hts : strOptTruthy fo = true)
    (hsw : strStartsWith (fo.getD "") "preset:" = false) :
    parseFieldList fo = Except.ok (some (splitFields (fo.getD ""))) := by
  unfold parseFieldList
  rw [hts, hsw]
  rfl

theorem parseFieldList_absent {fo : Option String}
    (hts : strOptTruthy fo = false) : parseFieldList fo = Except.ok none := by
  unfold parseFieldList
  rw [hts]
  rfl

theorem parseFieldList_error_iff (fo : Option String) :
    (∃ e, parseFieldList fo = Except.error e)
      ↔ (strOptTruthy fo = true
          ∧ strStartsWith (fo.getD "") "preset:" = true
          ∧ List.lookup (strDrop (fo.getD "") 7) FIELD_PRESETS = none) := by
  cases hts : strOptTruthy fo with
  | false =>
    constructor
    · intro he
      rcases he with ⟨e, he⟩
      rw [parseFieldList_absent hts] at he
      cases he
    · intro hp
      cases hp.1
  | true =>
    cases hsw : strStartsWith (fo.getD "") "preset:" with
    | false =>
      constructor
      · intro he
        rcases he with ⟨e, he⟩
        rw [parseFieldList_split hts hsw] at he
        cases he
      · intro hp
        cases hp.2.1
    | true =>
      cases hlk : List.lookup (strDrop (fo.getD "") 7) FIELD_PRESETS with
      | none =>
        constructor
        · intro _
          exact ⟨rfl, rfl, rfl⟩
        · intro _
          exact ⟨_, parseFieldList_err hts hsw hlk⟩
      | some l =>
        constructor
        · intro he
          rcases he with ⟨e, he⟩
          rw [parseFieldList_preset hts hsw hlk] at he
          cases he
        · intro hp
          exact Option.noConfusion hp.2.2

theorem validate_ok (fl : Option (List String)) (fmt : String)
    (agg : Option String)
    (hfmt : ["csv", "json", "compact"].contains fmt = true)
    (hagg : (strOptTruthy agg
      && !(["first", "last"].contains (agg.getD ""))) = false) :
    validateFormatAggregate fl fmt agg
      = Except.ok (FilterOptions.mk fl none fmt agg none) := by
  unfold validateFormatAggregate
  rw [hfmt, hagg]
  rfl

theorem validate_err_fmt (fl : Option (List String)) (fmt : String)
    (agg : Option String)
    (hfmt : ["csv", "json", "compact"].contains fmt = false) :
    validateFormatAggregate fl fmt agg
      = Except.error ("Invalid output_format: " ++ fmt ++
          ". Must be \x27csv\x27, \x27json\x27, or \x27compact\x27") := by
  unfold validateFormatAggregate
  rw [hfmt]
  rfl

theorem validate_err_agg (fl : Option (List String)) (fmt : String)
    (agg : Option String)
    (hfmt : ["csv", "json", "compact"].contains fmt = true)
    (hagg : (strOptTruthy agg
      && !(["first", "last"].contains (agg.getD ""))) = true) :
    validateFormatAggregate fl fmt agg
      = Except.error ("Invalid aggregate: " ++ agg.getD "" ++
          ". Must be \x27first\x27, \x27last\x27, or None") := by
  unfold validateFormatAggregate
  rw [hfmt, hagg]
  rfl

theorem validate_error_iff (fl : Option (List String)) (fmt : String)
    (agg : Option String) :
    (∃ e, validateFormatAggregate fl fmt agg = Except.error e)
      ↔ ["csv", "json", "compact"].contains fmt = false
        ∨ (strOptTruthy agg = true
            ∧ ["first", "last"].contains (agg.getD "") = false) := by
  cases hfmt : List.contains ["csv", "json", "compact"] fmt with
  | false =>
    constructor
    · intro _
      exact Or.inl rfl
    · intro _
      exact ⟨_, validate_err_fmt fl fmt agg hfmt⟩
  | true =>
    cases hagg : strOptTruthy agg
        && !(["first", "last"].contains (agg.getD "")) with
    | true =>
      have hagg2 : strOptTruthy agg = true
          ∧ ["first", "last"].contains (agg.getD "") = false := by
        revert hagg
        cases strOptTruthy agg <;>
          cases ["first", "last"].contains (agg.getD "") <;> simp
      constructor
      · intro _
        exact Or.inr hagg2
      · intro _
        exact ⟨_, validate_err_agg fl fmt agg hfmt hagg⟩
    | false =>
      constructor
      · intro he
        rcases he with ⟨e, he⟩
        rw [validate_ok fl fmt agg hfmt hagg] at he
        cases he
      · intro h
        rcases h with h | ⟨h1, h2⟩
        · cases h
        · rw [h1, h2] at hagg
          simp at hagg

/-- C4: option parsing raises exactly when the fields specifier is a
`preset:` reference to an unregistered name, or the format is not one of
csv/json/compact, or the aggregate specifier is truthy and not first/last;
the unknown-preset error names the preset and enumerates every registered
preset name; a plain fields string parses to its comma-split,
whitespace-trimmed, empty-dropped name list in order, a registered preset
to exactly its field list, and an absent fields specifier to no list; and
the accepted aggregate and format specifiers are stored unchanged, an
empty or absent aggregate being falsy (no aggregation). -/
theorem c4_option_parsing :
    (∀ (fo : Option String) (fmt : String) (agg : Option String),
        (∃ e, parse_filter_params fo fmt agg = Except.error e)
          ↔ ((strOptTruthy fo = true
                ∧ strStartsWith (fo.getD "") "preset:" = true
                ∧ List.lookup (strDrop (fo.getD "") 7) FIELD_PRESETS = none)
              ∨ ["csv", "json", "compact"].contains fmt = false
              ∨ (strOptTruthy agg = true
                  ∧ ["first", "last"].contains (agg.getD "") = false)))
    ∧ (∀ (s fmt : String) (agg : Option String),
        strOptTruthy (some s) = true → strStartsWith s "preset:" = true →
        List.lookup (strDrop s 7) FIELD_PRESETS = none →
        parse_filter_params (some s) fmt agg
          = Except.error ("Unknown preset: " ++ strDrop s 7
              ++ ". Available presets: " ++ presetNamesStr))
    ∧ presetNamesStr = ", ".intercalate (FIELD_PRESETS.map (fun p => p.1))
    ∧ (∀ (s fmt : String) (agg : Option String) (l : List String),
        strOptTruthy (some s) = true → strStartsWith s "preset:" = true →
        List.lookup (strDrop s 7) FIELD_PRESETS = some l →
        ["csv", "json", "compact"].contains fmt = true →
        (strOptTruthy agg && !(["first", "last"].contains (agg.getD ""))) = false →
        parse_filter_params (some s) fmt agg
          = Except.ok (FilterOptions.mk (some l) none fmt agg none))
    ∧ (∀ (s fmt : String) (agg : Option String),
        strOptTruthy (some s) = true → strStartsWith s "preset:" = false →
        ["csv", "json", "compact"].contains fmt = true →
        (strOptTruthy agg && !(["first", "last"].contains (agg.getD ""))) = false →
        parse_filter_params (some s) fmt agg
          = Except.ok (FilterOptions.mk (some (splitFields s)) none fmt agg none))
    ∧ (∀ (fo : Option String) (fmt : String) (agg : Option String),
        strOptTruthy fo = false →
        ["csv", "json", "compact"].contains fmt = true →
        (strOptTruthy agg && !(["first", "last"].contains (agg.getD ""))) = false →
        parse_filter_params fo fmt agg
          = Except.ok (FilterOptions.mk none none fmt agg none))
    ∧ (∀ (fo : Option String) (fmt : String) (agg : Option String)
        (opts : FilterOptions),
        parse_filter_params fo fmt agg = Except.ok opts →
        opts.aggregate = agg ∧ opts.format = fmt) := by
  refine ⟨?_, ?_, rfl, ?_, ?_, ?_, ?_⟩
  · intro fo fmt agg
    cases hpf : parseFieldList fo with
    | error e =>
      have hp := (parseFieldList_error_iff fo).mp ⟨e, hpf⟩
      constructor
      · intro _
        exact Or.inl hp
      · intro _
        refine ⟨e, ?_⟩
        unfold parse_filter_params
        rw [hpf]
    | ok fl =>
      have hnp : ¬(strOptTruthy fo = true
          ∧ strStartsWith (fo.getD "") "preset:" = true
          ∧ List.lookup (strDrop (fo.getD "") 7) FIELD_PRESETS = none) := by
        intro hp
        rcases (parseFieldList_error_iff fo).mpr hp with ⟨e, he⟩
        rw [hpf] at he
        cases he
      have hred : ∀ e, parse_filter_params fo fmt agg = Except.error e
          ↔ validateFormatAggregate fl fmt agg = Except.error e := by
        intro e
        unfold parse_filter_params
        rw [hpf]
      constructor
      · intro he
        rcases he with ⟨e, he⟩
        exact Or.inr ((validate_error_iff fl fmt agg).mp ⟨e, (hred e).mp he⟩)
      · intro h
        rcases h with hp | h
        · exact absurd hp hnp
        · rcases (validate_error_iff fl fmt agg).mpr h with ⟨e, he⟩
          exact ⟨e, (hred e).mpr he⟩
  · intro s fmt agg hts hsw hlk
    unfold parse_filter_params
    rw [parseFieldList_err hts hsw hlk]
    rfl
  · intro s fmt agg l hts hsw hlk hfmt hagg
    unfold parse_filter_params
    rw [parseFieldList_preset hts hsw hlk]
    exact validate_ok (some l) fmt agg hfmt hagg
  · intro s fmt agg hts hsw hfmt hagg
    unfold parse_filter_params
    rw [parseFieldList_split hts hsw]
    exact validate_ok (some (splitFields s)) fmt agg hfmt hagg
  · intro fo fmt agg hts hfmt hagg
    unfold parse_filter_params
    rw [parseFieldList_absent hts]
    exact validate_ok none fmt agg hfmt hagg
  · intro fo fmt agg opts h
    unfold parse_filter_params at h
    cases hpf : parseFieldList fo with
    | error e =>
      rw [hpf] at h
      cases h
    | ok fl =>
      rw [hpf] at h
      have h2 : validateFormatAggregate fl fmt agg = Except.ok opts := h
      cases hfmt : List.contains ["csv", "json", "compact"] fmt with
      | false =>
        rw [validate_err_fmt fl fmt agg hfmt] at h2
        cases h2
      | true =>
        cases hagg : strOptTruthy agg
            && !(["first", "last"].contains (agg.getD "")) with
        | true =>
          rw [validate_err_agg fl fmt agg hfmt hagg] at h2
          cases h2
        | false =>
          rw [validate_ok fl fmt agg hfmt hagg] at h2
          cases h2
          exact ⟨rfl, rfl⟩

/-- C4 witness: `preset:greeks` parses to exactly the greeks preset list,
`preset:bogus` fails with the enumerating message, format `xml` fails,
aggregate `average` fails, comma-separated fields parse trimmed and in
order, and an absent aggregate is stored falsy. -/
theorem c4_option_parsing_witness :
    parse_filter_params (some "preset:bogus") "csv" none
      = Except.error ("Unknown preset: " ++ strDrop "preset:bogus" 7
          ++ ". Available presets: " ++ presetNamesStr)
    ∧ parse_filter_params (some "preset:greeks") "csv" none
      = Except.ok (FilterOptions.mk
          (some ["details_ticker", "details_strike_price",
            "details_expiration_date", "details_contract_type",
            "greeks_delta", "greeks_gamma", "greeks_theta", "greeks_vega",
            "implied_volatility"]) none "csv" none none)
    ∧ (∃ e, parse_filter_params none "xml" none = Except.error e)
    ∧ (∃ e, parse_filter_params none "csv" (some "average") = Except.error e)
    ∧ parse_filter_params (some " ticker , close , volume ") "csv" none
      = Except.ok (FilterOptions.mk (some ["ticker", "close", "volume"])
          none "csv" none none)
    ∧ strOptTruthy (FilterOptions.mk none none "csv" none none).aggregate
        = false := by
  refine ⟨?_, ?_, ?_, ?_, ?_, rfl⟩
  · exact c4_option_parsing.2.1 "preset:bogus" "csv" none rfl rfl rfl
  · have h := c4_option_parsing.2.2.2.1 "preset:greeks" "csv" none
      ["details_ticker", "details_strike_price", "details_expiration_date",
       "details_contract_type", "greeks_delta", "greeks_gamma",
       "greeks_theta", "greeks_vega", "implied_volatility"]
      rfl rfl rfl rfl rfl
    exact h
  · exact (c4_option_parsing.1 none "xml" none).mpr (Or.inr (Or.inl rfl))
  · exact (c4_option_parsing.1 none "csv" (some "average")).mpr
      (Or.inr (Or.inr ⟨rfl, rfl⟩))
  · exact c4_option_parsing.2.2.2.2.1 " ticker , close , volume " "csv" none
      rfl rfl rfl rfl

/-! ### Formatter boundary behaviour: C7, C9, C10 -/

/-- C7: lenient degradation at the formatter boundary.  On any string input
the embedded parser rejects, the table formatter returns `""`, the filtered
JSON formatter returns `"[]"`, and the compact formatter returns the empty
object text, none of them failing; and table rendering of a parsed input
whose extracted record list is empty is the empty string (no header row). -/
theorem c7_lenient_formatters :
    (∀ (s : String) (f e : Option (List String)), parseJson s = none →
        json_to_csv_filtered (.inl s) f e = "")
    ∧ (∀ (s : String) (f : Option (List String)), parseJson s = none →
        json_to_json_filtered (.inl s) f = "[]")
    ∧ (∀ (s : String) (f : Option (List String)), parseJson s = none →
        json_to_compact (.inl s) f = "\x7b\x7d")
    ∧ (∀ (data : Json) (f e : Option (List String)),
        extractRecordsCsv data = [] →
        json_to_csv_filtered (.inr data) f e = "") := by
  refine ⟨?_, ?_, ?_, ?_⟩
  · intro s f e h
    simp [json_to_csv_filtered, inputData, h]
  · intro s f h
    simp [json_to_json_filtered, inputData, h]
  · intro s f h
    simp [json_to_compact, inputData, h]
  · intro data f e h
    simp [json_to_csv_filtered, inputData, h, filterRecords, ite_self]

/-- C7 witness: on the non-JSON text `not json` the three formatters return
their sentinels, and the empty-`results` envelope renders to the empty
table. -/
theorem c7_lenient_formatters_witness :
    parseJson "not json" = none
    ∧ json_to_csv_filtered (.inl "not json") none none = ""
    ∧ json_to_json_filtered (.inl "not json") none = "[]"
    ∧ json_to_compact (.inl "not json") none = "\x7b\x7d"
    ∧ json_to_csv_filtered (.inr (Json.obj [("results", Json.arr [])]))
        none none = "" :=
  ⟨rfl,
   c7_lenient_formatters.1 "not json" none none rfl,
   c7_lenient_formatters.2.1 "not json" none rfl,
   c7_lenient_formatters.2.2.1 "not json" none rfl,
   c7_lenient_formatters.2.2.2 (Json.obj [("results", Json.arr [])])
     none none rfl⟩

/-- C9: the orchestrator does not degrade on malformed JSON text: for any
string the embedded parser rejects and any options value, `apply_filters`
propagates the parse error instead of returning a formatter sentinel. -/
theorem c9_orchestrator_strict :
    ∀ (s : String) (options : FilterOptions), parseJson s = none →
      apply_filters (.inl s) options
        = Except.error "json.decoder.JSONDecodeError: Expecting value" := by
  intro s options h
  simp [apply_filters, h]

/-- C9 witness: on the non-JSON text `not json` with plain csv options, the
orchestrator returns the parse error. -/
theorem c9_orchestrator_strict_witness :
    apply_filters (.inl "not json")
        (FilterOptions.mk none none "csv" none none)
      = Except.error "json.decoder.JSONDecodeError: Expecting value" :=
  c9_orchestrator_strict "not json"
    (FilterOptions.mk none none "csv" none none) rfl

/-- C10: an empty include list disables field filtering.  The fields
specifier `","` parses to the empty field list (not an error and not
`None`); and each formatter treats the empty include list exactly as an
absent one — the include branch is skipped, so all fields are kept and an
exclude list, when supplied, still applies. -/
theorem c10_empty_include_list :
    parse_filter_params (some ",") "csv" none
      = Except.ok (FilterOptions.mk (some []) none "csv" none none)
    ∧ (∀ (input : String ⊕ Json) (excl : Option (List String)),
        json_to_csv_filtered input (some []) excl
          = json_to_csv_filtered input none excl)
    ∧ (∀ input : String ⊕ Json,
        json_to_json_filtered input (some [])
          = json_to_json_filtered input none)
    ∧ (∀ input : String ⊕ Json,
        json_to_compact input (some []) = json_to_compact input none) := by
  refine ⟨rfl, ?_, ?_, ?_⟩
  · intro input excl
    cases hd : inputData input with
    | none => simp [json_to_csv_filtered, hd]
    | some d =>
      simp [json_to_csv_filtered, hd, filterRecords, listOptTruthy]
  · intro input
    cases hd : inputData input with
    | none => simp [json_to_json_filtered, hd]
    | some d =>
      simp [json_to_json_filtered, hd, listOptTruthy]
  · intro input
    cases hd : inputData input with
    | none => simp [json_to_compact, hd]
    | some d =>
      simp [json_to_compact, hd, listOptTruthy]

/-- C10 witness: with the empty include list and an exclude list, the table
formatter output on a one-field record equals the output with no include
list (the exclude list still applies). -/
theorem c10_empty_include_list_witness :
    json_to_csv_filtered (Sum.inr (Json.obj [("a", Json.num 1)]))
        (some []) (some ["a"])
      = json_to_csv_filtered (Sum.inr (Json.obj [("a", Json.num 1)]))
          none (some ["a"]) :=
  c10_empty_include_list.2.1 (Sum.inr (Json.obj [("a", Json.num 1)]))
    (some ["a"])

end Massive




